import Mathlib

/-! Shallow embedding of the rslox bytecode compiler and virtual machine

This file embeds, in Lean, the parts of the `rslox` interpreter that the
verified properties speak about: the value representation (`src/value/mod.rs`,
`src/value/objects.rs`, `src/value/conversions.rs`), the chunk and opcode
encoding (`src/chunk/mod.rs`), the compiler's local-variable and jump-patching
machinery (`src/compiler/variables.rs`, `src/compiler/bytecode.rs`), and the
VM's operations (`src/vm/operations.rs`, `src/vm/functions.rs`,
`src/vm/variables.rs`, `src/vm/garbage_collection.rs`, `src/vm/call_frame.rs`).

Modelling conventions:
* Rust `Vec<Value>` stacks are Lean lists with the head as the stack top
  (Rust pushes/pops at the end of the vector).
* Heap pointers (`NonNull<Object>`) are natural-number addresses.  The VM's
  intrusive object list is the list of addresses in list order, and a separate
  association list carries each address's payload.  Fresh allocation uses a
  monotone counter, mirroring the fact that every `Box::into_raw` yields a
  distinct address.
* `f64` numbers are modelled as exact rationals; no claim settled here depends
  on floating-point rounding, NaN, or float formatting.
* Rust panics (`unwrap` on an empty stack, `unreachable!`) are modelled by
  `Option` (`none` = panic) where a claim can reach them, and by documented
  guarded defaults where the surrounding code makes them unreachable.
* `construct_runtime_error` (src/vm/errors.rs) prefixes the message with a
  stack trace and resets the VM; the embedding keeps the core message only,
  which is the part the properties quote.
-/

deriving instance DecidableEq for Except

namespace RsLox

/-- The dynamic value type, from `enum Literal` / `enum Value` in
`src/value/mod.rs` (lines 145-173).  `Value::Obj(NonNull<Object>)` is
modelled as `obj addr`; the payload lives in the VM's heap map. -/
inductive Value where
  | nil : Value
  | bool (b : Bool) : Value
  | num (n : ℚ) : Value
  | litString (s : String) : Value
  | obj (addr : Nat) : Value
deriving DecidableEq, Repr

/-- The opcode enumeration from `src/chunk/mod.rs` (lines 16-77). -/
inductive OpCode where
  | opReturn | opConstant | opNegate | opAdd | opSubtract | opMultiply
  | opDivide | opNil | opTrue | opFalse | opNot | opEqual | opGreater
  | opLess | opPrint | opPop | opDefineGlobal | opGetGlobal | opSetGlobal
  | opGetLocal | opSetLocal | opJumpIfFalse | opJump | opLoop | opCall
deriving DecidableEq, Repr

/-- The `#[repr(u8)]` discriminants assigned in `src/chunk/mod.rs`. -/
def OpCode.toByte : OpCode → Nat
  | .opReturn => 0 | .opConstant => 1 | .opNegate => 2 | .opAdd => 3
  | .opSubtract => 4 | .opMultiply => 5 | .opDivide => 6 | .opNil => 7
  | .opTrue => 8 | .opFalse => 9 | .opNot => 10 | .opEqual => 11
  | .opGreater => 12 | .opLess => 13 | .opPrint => 14 | .opPop => 15
  | .opDefineGlobal => 16 | .opGetGlobal => 17 | .opSetGlobal => 18
  | .opGetLocal => 19 | .opSetLocal => 20 | .opJumpIfFalse => 21
  | .opJump => 22 | .opLoop => 23 | .opCall => 24

/-- Source `struct Chunk` from `src/chunk/mod.rs` (lines 115-125): bytecode bytes,
constant pool, and the per-byte line map. -/
structure Chunk where
  code : List Nat := []
  constants : List Value := []
  lines : List Int := []
deriving DecidableEq, Repr

/-- Source `Chunk::write_chunk` (src/chunk/mod.rs lines 146-149): push the byte and
its line number. -/
def Chunk.write_chunk (c : Chunk) (byte : Nat) (line : Int) : Chunk :=
  { c with code := c.code ++ [byte], lines := c.lines ++ [line] }

/-- Source `Chunk::add_constant` (src/chunk/mod.rs lines 152-155): append and return
the zero-based index. -/
def Chunk.add_constant (c : Chunk) (v : Value) : Chunk × Nat :=
  ({ c with constants := c.constants ++ [v] }, c.constants.length)

/-- Source `struct FunctionObject` from `src/value/objects.rs` (lines 31-36).  The
snapshot cited by the call-dispatch claims compares `arity` directly against
the `u8` argument count, so `arity` is a natural number here. -/
structure FunctionObject where
  arity : Nat
  chunk : Chunk
  name : Option String
deriving DecidableEq, Repr

/-- Heap object payloads: `enum ObjectType` from `src/value/objects.rs`,
plus the `Native` variant that `src/value/conversions.rs` (lines 61, 112)
matches on (the enum declaration carrying it is not among the sources; the
native payload, a function pointer, is modelled as an identifier). -/
inductive HObject where
  | hstring (s : String) : HObject
  | hfunction (f : FunctionObject) : HObject
  | hnative (id : Nat) : HObject
deriving DecidableEq, Repr

/-- Source `struct CallFrame` from `src/vm/call_frame.rs` (lines 3-7): the callee
value, instruction pointer, and the stack index where the frame's slots
start. -/
structure CallFrame where
  function : Value
  ip_offset : Nat
  starting_offset : Nat
deriving DecidableEq, Repr

/-- The VM state, from `struct VM` in `src/vm/mod.rs` (lines 98-108): value
stack, intrusive object list, globals map, frame stack.  The `heap` map and
`nextAddr` counter realise the raw-pointer store. -/
structure VM where
  stack : List Value := []
  objects : List Nat := []
  heap : List (Nat × HObject) := []
  globals : List (String × Value) := []
  frames : List CallFrame := []
  nextAddr : Nat := 0
deriving DecidableEq, Repr

/-- Address lookup in the heap map (first match, sufficient because
allocation always uses a fresh address). -/
def heapGet (heap : List (Nat × HObject)) (addr : Nat) : Option HObject :=
  match heap with
  | [] => none
  | (a, o) :: rest => if a = addr then some o else heapGet rest addr

/-- Source `Value::is_number` (src/value/mod.rs lines 203-205). -/
def Value.isNumber : Value → Bool
  | .num _ => true
  | _ => false

/-- Source `Value::is_bool` (src/value/mod.rs lines 193-195). -/
def Value.isBool : Value → Bool
  | .bool _ => true
  | _ => false

/-- Source `Value::is_nil` (src/value/mod.rs lines 198-200). -/
def Value.isNil : Value → Bool
  | .nil => true
  | _ => false

/-- Source `Value::is_object` / `is_obj` (src/value/mod.rs lines 208-210): any heap
pointer, whatever its payload. -/
def Value.isObject : Value → Bool
  | .obj _ => true
  | _ => false

/-- Source `Value::is_falsey` (src/value/mod.rs lines 213-215): nil, or a false
boolean; everything else is truthy. -/
def Value.is_falsey : Value → Bool
  | .nil => true
  | .bool b => !b
  | _ => false

/-- Source `Value::is_literal_string` (src/value/mod.rs lines 283-288). -/
def Value.isLiteralString : Value → Bool
  | .litString _ => true
  | _ => false

/-- Source `Value::is_object_string` (src/value/mod.rs lines 291-298): a heap
pointer whose payload is a string. -/
def isObjectStringH (heap : List (Nat × HObject)) (v : Value) : Bool :=
  match v with
  | .obj a => match heapGet heap a with
    | some (.hstring _) => true
    | _ => false
  | _ => false

/-- Source `Value::is_string` (src/value/mod.rs lines 311-313): object string or
literal string. -/
def isStringH (heap : List (Nat × HObject)) (v : Value) : Bool :=
  isObjectStringH heap v || v.isLiteralString

/-- Source `Value::is_string` read through the owning VM. -/
def VM.isString (vm : VM) (v : Value) : Bool :=
  isStringH vm.heap v

/-- Source `Value::is_function` (src/value/mod.rs lines 301-308): heap pointer with
a function payload. -/
def isFunctionH (heap : List (Nat × HObject)) (v : Value) : Bool :=
  match v with
  | .obj a => match heapGet heap a with
    | some (.hfunction _) => true
    | _ => false
  | _ => false

/-- Source `Value::is_function` read through the owning VM. -/
def VM.isFunction (vm : VM) (v : Value) : Bool :=
  isFunctionH vm.heap v

/-- Source `Value::is_native`: heap pointer with a native payload (counterpart of
`is_function` for the `Native` object variant used by
`src/vm/functions.rs` line 41). -/
def isNativeH (heap : List (Nat × HObject)) (v : Value) : Bool :=
  match v with
  | .obj a => match heapGet heap a with
    | some (.hnative _) => true
    | _ => false
  | _ => false

/-- Source `Value::is_native` read through the owning VM. -/
def VM.isNative (vm : VM) (v : Value) : Bool :=
  isNativeH vm.heap v

/-- Placeholder rendering of an `f64` for string coercion; the properties
settled here never inspect the text of a formatted number. -/
def numToString (n : ℚ) : String := toString n

/-- Source `impl From<Value> for String` (src/value/conversions.rs lines 44-67)
together with the `Display` impls it falls back to: a heap string yields its
contents, a heap function `<fn name>` / `<script>`, a native `<native>`, and
any literal its display form. -/
def asStringH (heap : List (Nat × HObject)) (v : Value) : String :=
  match v with
  | .obj a =>
    match heapGet heap a with
    | some (.hstring s) => s
    | some (.hfunction f) =>
      match f.name with
      | some n => "<fn " ++ n ++ ">"
      | none => "<script>"
    | some (.hnative _) => "<native>"
    | none => ""
  | .litString s => s
  | .nil => "Nil"
  | .bool b => if b then "true" else "false"
  | .num n => numToString n

/-- Source `Value::as_string` read through the owning VM. -/
def VM.valueAsString (vm : VM) (v : Value) : String :=
  asStringH vm.heap v

/-- The `#[derive(PartialEq)]` equality of `Value`
(src/value/mod.rs lines 168-173): literals compare structurally variant by
variant; `Obj(NonNull<Object>)` compares the raw pointers, i.e. the
addresses, never the pointed-to payloads. -/
def valueEq : Value → Value → Bool
  | .nil, .nil => true
  | .bool a, .bool b => a == b
  | .num a, .num b => a == b
  | .litString a, .litString b => a == b
  | .obj a, .obj b => a == b
  | _, _ => false

/-- Source `VM::push` (src/vm/mod.rs lines 195-199). -/
def VM.push (vm : VM) (v : Value) : VM :=
  { vm with stack := v :: vm.stack }

/-- Source `VM::pop` discarding the result (`self.pop();` in the source): removes
the top of the stack if present. -/
def VM.popDiscard (vm : VM) : VM :=
  { vm with stack := vm.stack.tail }

/-- Remove the first node with the given address from a linked list of
addresses; body of the loop in `VM::remove_object_pointer`
(src/vm/garbage_collection.rs lines 66-96).  Since every allocation gets a
fresh address there is at most one matching node. -/
def removeFirstAddr : List Nat → Nat → List Nat
  | [], _ => []
  | a :: rest, x => if a = x then rest else a :: removeFirstAddr rest x

/-- Source `VM::remove_object_pointer` (src/vm/garbage_collection.rs lines 66-96):
unlink the node for this pointer from the VM's object list. -/
def VM.remove_object_pointer (vm : VM) (addr : Nat) : VM :=
  { vm with objects := removeFirstAddr vm.objects addr }

/-- Source `Object::with_vm` (src/value/objects.rs lines 84-110): box the payload at
a fresh address and prepend the node to the VM's object list, returning the
pointer. -/
def VM.with_vm (vm : VM) (ty : HObject) : VM × Nat :=
  ({ vm with
      heap := (vm.nextAddr, ty) :: vm.heap,
      objects := vm.nextAddr :: vm.objects,
      nextAddr := vm.nextAddr + 1 },
    vm.nextAddr)

/-- Source `Value::from_runtime_str` (src/value/mod.rs lines 177-180) via
`Object::from_str`: allocate a tracked heap string and wrap the pointer. -/
def VM.from_runtime_str (vm : VM) (s : String) : VM × Value :=
  let (vm', addr) := vm.with_vm (.hstring s)
  (vm', .obj addr)

/-- Source `VM::concatenate_strings` (src/vm/operations.rs lines 9-47): for each
operand, if it is a heap object its node is first unlinked from the object
list and the payload extracted; otherwise the value is formatted directly.
The concatenation `left ++ right` is then allocated as a fresh tracked heap
string and pushed.  (`Value::from_runtime_str` can only fail when
`NonNull::new` fails, which the address model cannot reproduce.) -/
def VM.concatenate_strings (vm : VM) (left_operand right_operand : Value) :
    Except String VM :=
  let (vm1, left) :=
    match left_operand with
    | .obj a => ((vm.remove_object_pointer a), vm.valueAsString left_operand)
    | _ => (vm, vm.valueAsString left_operand)
  let (vm2, right) :=
    match right_operand with
    | .obj a => ((vm1.remove_object_pointer a), vm.valueAsString right_operand)
    | _ => (vm1, vm.valueAsString right_operand)
  let (vm3, v) := vm2.from_runtime_str (left ++ right)
  .ok (vm3.push v)

/-- The `Add` impl on `Value` (src/value/operators.rs lines 8-23); the
non-number arms are `unreachable!()` in the source and are only ever reached
behind `binary_op`'s type check. -/
def valueAdd : Value → Value → Value
  | .num a, .num b => .num (a + b)
  | _, _ => .nil

/-- The `Sub` impl on `Value` (src/value/operators.rs lines 28-41). -/
def valueSub : Value → Value → Value
  | .num a, .num b => .num (a - b)
  | _, _ => .nil

/-- The `Mul` impl on `Value` (src/value/operators.rs lines 46-59). -/
def valueMul : Value → Value → Value
  | .num a, .num b => .num (a * b)
  | _, _ => .nil

/-- The `Div` impl on `Value` (src/value/operators.rs lines 64-77); division
is exact here where the source divides `f64`s. -/
def valueDiv : Value → Value → Value
  | .num a, .num b => .num (a / b)
  | _, _ => .nil

/-- Source `Value::to_number` (src/value/mod.rs lines 218-220), guarded by
`binary_op`'s number check in the source. -/
def Value.to_number : Value → ℚ
  | .num n => n
  | _ => 0

/-- Source `VM::binary_op` (src/vm/operations.rs lines 51-123): pop the right then
the left operand; accept when both are numbers, or when either is a string
and the opcode is `ADD`; reject anything else with a runtime error.  On the
string path delegate to `concatenate_strings`; otherwise apply the numeric
operator and push. -/
def VM.binary_op (vm : VM) (opcode : OpCode) : Except String VM :=
  match vm.stack with
  | [] => .error "Expected value on stack"
  | right_operand :: rest1 =>
    match rest1 with
    | [] => .error "Expected value on stack"
    | left_operand :: rest =>
      let vmP : VM := { vm with stack := rest }
      let operands_are_numbers :=
        right_operand.isNumber && left_operand.isNumber
      let one_operand_is_string :=
        vm.isString right_operand || vm.isString left_operand
      if !(operands_are_numbers ||
            (one_operand_is_string && opcode == OpCode.opAdd)) then
        .error "Invalid operation on these operands."
      else if vm.isString right_operand || vm.isString left_operand then
        vmP.concatenate_strings left_operand right_operand
      else
        match opcode with
        | .opAdd => .ok (vmP.push (valueAdd left_operand right_operand))
        | .opSubtract => .ok (vmP.push (valueSub left_operand right_operand))
        | .opMultiply => .ok (vmP.push (valueMul left_operand right_operand))
        | .opDivide => .ok (vmP.push (valueDiv left_operand right_operand))
        | .opGreater =>
          .ok (vmP.push (.bool
            (decide (right_operand.to_number < left_operand.to_number))))
        | .opLess =>
          .ok (vmP.push (.bool
            (decide (left_operand.to_number < right_operand.to_number))))
        | _ => .error "unreachable: binary_op called with a non-binary opcode"

/-- Source `VM::op_not` (src/vm/operations.rs lines 141-164): pop; the operand must
be a bool or nil, otherwise a runtime error; push `is_falsey` of it. -/
def VM.op_not (vm : VM) : Except String VM :=
  match vm.stack with
  | [] => .error "Expected value on stack"
  | v :: rest =>
    if v.isBool || v.isNil then
      .ok { vm with stack := .bool v.is_falsey :: rest }
    else
      .error "Operand of ! operator should be a bool or nil"

/-- Source `VM::op_equal` (src/vm/operations.rs lines 166-180): pop `a` then `b` and
push `a == b` under the derived `PartialEq`. -/
def VM.op_equal (vm : VM) : Except String VM :=
  match vm.stack with
  | [] => .error "Expected value on stack"
  | a :: rest1 =>
    match rest1 with
    | [] => .error "Expected value on stack"
    | b :: rest =>
      .ok { vm with stack := .bool (valueEq a b) :: rest }

/-- Source `VM::op_return` (src/vm/functions.rs lines 10-29).  `pop().unwrap()` on
an empty stack is a panic, modelled as `none`.  With exactly one frame the
VM pops once more and reports termination; with more than one frame it pops
exactly two further values (their `Option` results are discarded), pushes
the result back, and pops the frame. -/
def VM.op_return (vm : VM) : Option (Bool × VM) :=
  match vm.stack with
  | [] => none
  | result :: rest =>
    let vm1 : VM := { vm with stack := rest }
    if vm1.frames.length = 1 then
      some (true, vm1.popDiscard)
    else
      let vm2 := if 1 < vm1.frames.length then vm1.popDiscard.popDiscard else vm1
      some (false, { vm2 with
        stack := result :: vm2.stack,
        frames := vm2.frames.tail })

/-- Modelled from the spec: `FRAMES_MAX`, from the `constants` module that is
declared but not present under `src/`; §3 and §4.3 fix the frame stack
capacity at 64. -/
def FRAMES_MAX : Nat := 64

/-- Modelled from the spec: `UINT8_COUNT`, from the absent `constants`
module; §4.2 fixes the per-function local capacity at 256. -/
def UINT8_COUNT : Nat := 256

/-- Source `Value::as_function_ref` totalised: the source `unreachable!()`s on a
non-function, and every use here is guarded by `is_function`. -/
def asFunctionRefH (heap : List (Nat × HObject)) (v : Value) : FunctionObject :=
  match v with
  | .obj a =>
    match heapGet heap a with
    | some (.hfunction f) => f
    | _ => ⟨0, {}, none⟩
  | _ => ⟨0, {}, none⟩

/-- Source `Value::as_function_ref` read through the owning VM. -/
def VM.as_function_ref (vm : VM) (v : Value) : FunctionObject :=
  asFunctionRefH vm.heap v

/-- Source `Value::as_native_ref` totalised the same way: yields the native's
identifier, guarded by `is_native` at the only call site. -/
def asNativeRefH (heap : List (Nat × HObject)) (v : Value) : Nat :=
  match v with
  | .obj a =>
    match heapGet heap a with
    | some (.hnative id) => id
    | _ => 0
  | _ => 0

/-- Source `Value::as_native_ref` read through the owning VM. -/
def VM.as_native_ref (vm : VM) (v : Value) : Nat :=
  asNativeRefH vm.heap v

/-- Source `VM::call` (src/vm/functions.rs lines 63-82): arity mismatch and
frame-capacity errors, otherwise push a frame whose slots start at
`stack.len() - arg_count` with instruction pointer 0. -/
def VM.call (vm : VM) (function : Value) (arg_count : Nat) :
    Except String VM :=
  let arity := (vm.as_function_ref function).arity
  if arg_count ≠ arity then
    .error ("Expected " ++ toString arity ++ " arguments but got " ++
      toString arg_count ++ ".")
  else if vm.frames.length = FRAMES_MAX then
    .error "Stack overflow."
  else
    let starting_index := vm.stack.length - arg_count
    .ok { vm with frames := ⟨function, 0, starting_index⟩ :: vm.frames }

/-- The loop `for _ in 0..arg_count { values.push(self.pop().unwrap()) }` in
`VM::call_value`: pop `n` values, the buffer listing them in pop order (the
stack top, i.e. the last-pushed argument, at index 0); `none` models the
`unwrap` panic when the stack runs dry. -/
def popN : Nat → List Value → Option (List Value × List Value)
  | 0, stack => some ([], stack)
  | n + 1, stack =>
    match stack with
    | [] => none
    | v :: rest =>
      match popN n rest with
      | none => none
      | some (buf, stack') => some (v :: buf, stack')

/-- Source `VM::call_value` (src/vm/functions.rs lines 38-57), parametrised by the
behaviour of native function pointers (`natImpl id arg_count values`).  A
function callee dispatches to `call`; a native callee has its arguments
popped into a buffer one at a time, then the callee popped, and the native's
result pushed; anything else is a runtime error. -/
def VM.call_value (natImpl : Nat → Nat → List Value → Value) (vm : VM)
    (callee : Value) (arg_count : Nat) : Option (Except String VM) :=
  if vm.isFunction callee then
    some (vm.call callee arg_count)
  else if vm.isNative callee then
    match popN arg_count vm.stack with
    | none => none
    | some (values, stack') =>
      let vm1 : VM := { vm with stack := stack' }
      let vm2 := vm1.popDiscard
      let result := natImpl (vm.as_native_ref callee) arg_count values
      some (.ok (vm2.push result))
  else
    some (.error "Can only call functions and classes")

/-- Address extraction for stack cleanup (`value.is_object()` /
`value.as_object()` in `free_stack_object_memory`). -/
def objAddr : Value → Option Nat
  | .obj a => some a
  | _ => none

/-- Drop the heap entries whose addresses occur in `addrs` (each
`Box::from_raw` in the source frees that node exactly once; the hash set in
`free_stack_object_memory` only guards against double frees, which the map
removal subsumes). -/
def removeAddrs (heap : List (Nat × HObject)) (addrs : List Nat) :
    List (Nat × HObject) :=
  heap.filter (fun p => !(addrs.contains p.1))

/-- Source `VM::free_objects` (src/vm/garbage_collection.rs lines 31-44): walk the
object list, freeing every node, leaving the list empty. -/
def VM.free_objects (vm : VM) : VM :=
  { vm with heap := removeAddrs vm.heap vm.objects, objects := [] }

/-- Source `VM::reset_stack` (src/vm/garbage_collection.rs lines 22-28): pop every
stack value, freeing heap objects among them, and clear the frame stack. -/
def VM.reset_stack (vm : VM) : VM :=
  { vm with
      heap := removeAddrs vm.heap (vm.stack.filterMap objAddr),
      stack := [],
      frames := [] }

/-- Source `VM::reset_vm` (src/vm/garbage_collection.rs lines 12-19): free the
object list, then reset the stacks.  The globals map is not touched. -/
def VM.reset_vm (vm : VM) : VM :=
  vm.free_objects.reset_stack

/-! Compiler-side state and operations

The `CompilationContext` / `CompilerState` struct declarations themselves are
not among the sources (only their impls are); each operation below acts on
the fields that the cited impls use: the current function's `Chunk`, and the
`locals` vector with `scope_depth`.  Identifiers are compared by their source
text (`are_identifiers_equal`, src/compiler/variables.rs lines 58-63), so a
local's name is modelled as the string it denotes; the line number that
`emit_byte` reads from `parser.previous` is passed explicitly. -/

/-- A compiler local, per the spec's §3 `Local` model used by
`src/compiler/variables.rs`: the identifier's text, and its lexical depth,
`-1` while declared but not yet initialized. -/
structure Local where
  name : String
  depth : Int
deriving DecidableEq, Repr

/-- Source `CompilationContext::resolve_local` (src/compiler/variables.rs lines
65-79): `for (i, local) in locals.iter().enumerate()` scans the vector from
index 0, i.e. from the oldest local to the newest, and returns at the first
name match: an error if that local's depth is `-1`, otherwise its index.
`-1` signals "not a local". -/
def resolve_local (locals : List Local) (name : String) : Except String Int :=
  go locals 0
where
  go : List Local → Nat → Except String Int
  | [], _ => .ok (-1)
  | l :: rest, i =>
    if l.name = name then
      if l.depth = -1 then
        .error "Can't read local variable in its own initializer"
      else
        .ok (i : Int)
    else
      go rest (i + 1)

/-- The conflict scan in `CompilationContext::declare_local_variable`
(src/compiler/variables.rs lines 40-53): walk `locals.iter().rev()` (newest
first), stop at the first local that is initialized at a shallower depth,
and report a conflict on a name match before that point. -/
def sameScopeConflict : List Local → Int → String → Bool
  | [], _, _ => false
  | l :: rest, scope_depth, name =>
    if l.depth ≠ -1 ∧ l.depth < scope_depth then
      false
    else if l.name = name then
      true
    else
      sameScopeConflict rest scope_depth name

/-- Source `CompilationContext::declare_local_variable` plus `add_local_variable`
(src/compiler/variables.rs lines 31-56 and 81-92): a no-op at scope depth 0;
otherwise an error when the name is already declared in the current scope,
an error at the 256-local capacity, else push the local at depth `-1`. -/
def declare_local_variable (locals : List Local) (scope_depth : Int)
    (name : String) : Except String (List Local) :=
  if scope_depth = 0 then
    .ok locals
  else if sameScopeConflict locals.reverse scope_depth name then
    .error "Already a variable with this name in this scope."
  else if locals.length = UINT8_COUNT then
    .error "Too many local variables in scope"
  else
    .ok (locals ++ [⟨name, -1⟩])

/-- Source `CompilationContext::emit_byte` (src/compiler/bytecode.rs lines 86-92)
via `Chunk::write_chunk`: append the byte and the previous token's line. -/
def emit_byte (c : Chunk) (byte : Nat) (line : Int) : Chunk :=
  c.write_chunk byte line

/-- Source `CompilationContext::emit_jump` (src/compiler/bytecode.rs lines 27-34):
emit the instruction byte and two `0xff` placeholder bytes, and return
`code.len() - 2`, the index of the first placeholder byte. -/
def emit_jump (c : Chunk) (instruction : Nat) (line : Int) : Chunk × Nat :=
  let c1 := emit_byte (emit_byte (emit_byte c instruction line) 255 line) 255 line
  (c1, c1.code.length - 2)

/-- Source `CompilationContext::patch_jump` (src/compiler/bytecode.rs lines 48-74):
compute `code.len() - offset - 2`; reject distances beyond `u16::MAX` with a
compile error; otherwise overwrite the two placeholder bytes in place with
the big-endian 16-bit distance. -/
def patch_jump (c : Chunk) (offset : Nat) : Chunk × Option String :=
  let jump := c.code.length - offset - 2
  if jump > 65535 then
    (c, some "Too much code to jump over")
  else
    ({ c with code := (c.code.set offset (jump / 256)).set (offset + 1) (jump % 256) },
      none)

/-- Source `CompilationContext::emit_loop` (src/compiler/bytecode.rs lines 36-46):
emit the `LOOP` opcode, compute `code.len() - loop_start + 2`, reject
offsets beyond `u16::MAX`, else emit the two big-endian offset bytes. -/
def emit_loop (c : Chunk) (loop_start : Nat) (line : Int) : Chunk × Option String :=
  let c1 := emit_byte c OpCode.opLoop.toByte line
  let offset := c1.code.length - loop_start + 2
  if offset > 65535 then
    (c1, some "Loop body too large")
  else
    (emit_byte (emit_byte c1 (offset / 256) line) (offset % 256) line, none)

/-- Source `CompilationContext::make_constant` (src/compiler/bytecode.rs lines
77-84): add the constant, then reject pools past 256 entries. -/
def make_constant (c : Chunk) (v : Value) : Chunk × Except String Nat :=
  let (c1, idx) := c.add_constant v
  if idx > 255 then
    (c1, .error "Too many constants in one chunk")
  else
    (c1, .ok idx)

/-- The chunk-mutating steps a compilation performs, each applied through
the source operation it names; used to state that the code/lines length
equality is maintained at every point of a compilation. -/
inductive EmitStep where
  | byte (b : Nat) (line : Int) : EmitStep
  | jump (instruction : Nat) (line : Int) : EmitStep
  | patch (offset : Nat) : EmitStep
  | loop (loop_start : Nat) (line : Int) : EmitStep
  | const (v : Value) : EmitStep

/-- Apply one emit step to a chunk (keeping whatever state the source
operation leaves behind when it reports a compile error). -/
def applyStep (c : Chunk) : EmitStep → Chunk
  | .byte b line => emit_byte c b line
  | .jump instruction line => (emit_jump c instruction line).1
  | .patch offset => (patch_jump c offset).1
  | .loop loop_start line => (emit_loop c loop_start line).1
  | .const v => (make_constant c v).1

/-! Reference definitions written from the claims

These two definitions follow the claims' words, not the source; they exist
only to be compared against the source embeddings above. -/

/-- The local-resolution rule as claim C2 states it: walk the locals from
newest to oldest; the most recently declared matching local wins, resolving
to its slot when its depth is ≥ 0 and raising the own-initializer compile
error when its depth is `-1`. -/
def resolveLocalClaim (locals : List Local) (name : String) :
    Except String Int :=
  go locals.length locals.reverse
where
  go : Nat → List Local → Except String Int
  | _, [] => .ok (-1)
  | i, l :: rest =>
    if l.name = name then
      if l.depth = -1 then
        .error "Can't read local variable in its own initializer"
      else
        .ok ((i : Int) - 1)
    else
      go (i - 1) rest

/-- The return protocol as claim C1 states it: pop the result; with one
active frame, pop the top-level script value too and terminate; otherwise
pop the current frame's arguments and locals back to and including slot 0 —
the whole stack region of the frame, together with the callee sitting just
below its base, which the `CALL` table's net `-argc` effect removes — pop
the frame, and push the result. -/
def VM.op_return_claim (vm : VM) : Option (Bool × VM) :=
  match vm.stack with
  | [] => none
  | result :: rest =>
    let vm1 : VM := { vm with stack := rest }
    if vm1.frames.length = 1 then
      some (true, vm1.popDiscard)
    else
      match vm1.frames with
      | [] => none
      | f :: fs =>
        let keep := f.starting_offset - 1
        some (false, { vm1 with
          stack := result :: vm1.stack.drop (vm1.stack.length - keep),
          frames := fs })

/-- The `is_object` branch of `concatenate_strings`, seen on the object
list: a heap-pointer operand has its node unlinked, any other operand leaves
the list alone. -/
def unlinkIfObj (objects : List Nat) : Value → List Nat
  | .obj a => removeFirstAddr objects a
  | _ => objects

/-! Concrete program states used as inputs below -/

/-- The state of the VM at the moment `g`'s `RETURN` executes in the program
`fun g(){ return 7; } print 10 + g();`: bottom-to-top the stack holds the
script function, the temporary `10`, the callee `g`, and the result `7`;
`g`'s frame starts at slot index 3. -/
def returnExampleVM : VM :=
  { stack := [.num 7, .obj 2, .num 10, .obj 0],
    heap := [(0, .hfunction ⟨0, {}, none⟩), (2, .hfunction ⟨0, {}, some "g"⟩)],
    frames := [⟨.obj 2, 2, 3⟩, ⟨.obj 0, 9, 1⟩] }

/-- The stack `"a" + nil` presents to `ADD`: the literal string below, `nil`
on top. -/
def addNilExampleVM : VM := { stack := [.nil, .litString "a"] }

/-- A heap holding one function of arity 1 at address 0 and one native at
address 1, for exercising `call_value`. -/
def callExampleHeap : List (Nat × HObject) :=
  [(0, .hfunction ⟨1, { code := [0], lines := [1] }, some "f"⟩), (1, .hnative 7)]

/-- A VM whose frame stack is at the 64-frame capacity. -/
def fullFramesVM : VM :=
  { stack := [.num 3, .obj 0], heap := callExampleHeap,
    frames := List.replicate 64 ⟨.obj 0, 0, 1⟩ }

/-- A native behaviour for exercising the dispatch path: returns the buffer
entry at index 0 (as `println` reads `values[0]`). -/
def firstArgNative : Nat → Nat → List Value → Value :=
  fun _ _ values => values.headD .nil

/-! Theorems for the claims. -/

/-- Source `concatenate_strings` in one step: unlink the left then the right
operand's node when they are heap objects, format both against the unchanged
heap, allocate the concatenation at the fresh address, track it at the head
of the object list, and push it. -/
theorem concatenate_strings_eq (vm : VM) (l r : Value) :
    vm.concatenate_strings l r = .ok
      { vm with
        stack := .obj vm.nextAddr :: vm.stack,
        objects := vm.nextAddr :: unlinkIfObj (unlinkIfObj vm.objects l) r,
        heap := (vm.nextAddr,
          .hstring (asStringH vm.heap l ++ asStringH vm.heap r)) :: vm.heap,
        nextAddr := vm.nextAddr + 1 } := by
  cases l <;> cases r <;> rfl

/-- C1: executing `RETURN` in `fun g(){ return 7; } print 10 + g();` at `g`'s
return — a callee of arity 0 with no locals — the code pops its fixed two
values, removing the callee *and* the caller's temporary `10` below the
frame's base, instead of the claimed protocol of popping the frame's
arguments and locals (here none) plus the callee; the two resulting states
differ, so the subsequent `ADD` sees the script function as an operand and
raises a runtime error where the claim's protocol would print `17`. -/
theorem c1_op_return_pops_fixed_two :
    VM.op_return returnExampleVM =
      some (false, { returnExampleVM with
        stack := [.num 7, .obj 0], frames := [⟨.obj 0, 9, 1⟩] }) ∧
    VM.op_return_claim returnExampleVM =
      some (false, { returnExampleVM with
        stack := [.num 7, .num 10, .obj 0], frames := [⟨.obj 0, 9, 1⟩] }) ∧
    VM.op_return returnExampleVM ≠ VM.op_return_claim returnExampleVM := by
  refine ⟨by decide, by decide, by decide⟩

/-- C2: `resolve_local` scans the locals oldest-first, so with two locals
named `a` — the outer at depth 1, the inner shadow at depth 2, as in
`{ var a = 1; { var a = 2; print a; } }` — the code resolves the use to slot
0 (the outer local), while the claimed newest-to-oldest walk resolves it to
slot 1; likewise, when the newest `a` is still at depth `-1` (used in its
own initializer), the code silently resolves to the older `a` instead of
raising the own-initializer compile error the claim requires. -/
theorem c2_resolve_local_scans_oldest_first :
    resolve_local [⟨"a", 1⟩, ⟨"a", 2⟩] "a" = .ok 0 ∧
    resolveLocalClaim [⟨"a", 1⟩, ⟨"a", 2⟩] "a" = .ok 1 ∧
    resolve_local [⟨"a", 1⟩, ⟨"a", -1⟩] "a" = .ok 0 ∧
    resolveLocalClaim [⟨"a", 1⟩, ⟨"a", -1⟩] "a" =
      .error "Can't read local variable in its own initializer" := by
  refine ⟨by decide, by decide, by decide, by decide⟩

/-- C4 counterexample: `NOT` applied to the number `1` raises a runtime
error rather than pushing its falsiness, refuting the claim that `NOT` never
raises and that numbers are valid operands. -/
theorem c4_not_on_number_errors :
    VM.op_not { stack := [.num 1] } =
      .error "Operand of ! operator should be a bool or nil" := by decide

/-- C4 amended: executing `NOT` pops the operand; when it is a `Bool` or
`Nil` it pushes `is_falsey` of it — exactly `Nil` and `Bool(false)` being
falsey, and double negation recovering the operand's truthiness — while any
other operand (number, string, object) raises the runtime error
`Operand of ! operator should be a bool or nil`. -/
theorem c4_not_amended (v : Value) (rest : List Value) (objs : List Nat)
    (hp : List (Nat × HObject)) (g : List (String × Value))
    (fr : List CallFrame) (na : Nat) :
    ((v.isBool || v.isNil) = true →
      VM.op_not ⟨v :: rest, objs, hp, g, fr, na⟩ =
        .ok ⟨.bool v.is_falsey :: rest, objs, hp, g, fr, na⟩) ∧
    ((v.isBool || v.isNil) = false →
      VM.op_not ⟨v :: rest, objs, hp, g, fr, na⟩ =
        .error "Operand of ! operator should be a bool or nil") ∧
    (v.is_falsey = true ↔ v = .nil ∨ v = .bool false) ∧
    ((Value.bool v.is_falsey).is_falsey = !v.is_falsey) := by
  refine ⟨?_, ?_, ?_, ?_⟩
  · intro h
    simp only [VM.op_not, h, if_pos]
  · intro h
    simp only [VM.op_not, h, Bool.false_eq_true, if_false]
  · cases v <;> simp [Value.is_falsey]
  · cases v <;> simp [Value.is_falsey]

/-- C4 amendment at work: `NOT` on `true` pushes `false`. -/
theorem c4_not_amended_witness :
    VM.op_not ⟨[.bool true], [], [], [], [], 0⟩ =
      .ok ⟨[.bool false], [], [], [], [], 0⟩ := by
  have h := (c4_not_amended (.bool true) [] [] [] [] [] 0).1 (by decide)
  simpa [Value.is_falsey] using h

/-- C5 counterexample: `EQUAL` on a heap string `"a"` and a literal string
`"a"` pushes `false`, and likewise on two distinct heap allocations both
holding `"a"`, refuting the claim that strings compare by their character
contents regardless of representation. -/
theorem c5_equal_is_pointer_identity_on_heap :
    VM.op_equal ⟨[.obj 0, .litString "a"], [], [(0, .hstring "a")], [], [], 1⟩ =
      .ok ⟨[.bool false], [], [(0, .hstring "a")], [], [], 1⟩ ∧
    VM.op_equal ⟨[.obj 0, .obj 1], [],
        [(0, .hstring "a"), (1, .hstring "a")], [], [], 2⟩ =
      .ok ⟨[.bool false], [], [(0, .hstring "a"), (1, .hstring "a")], [], [], 2⟩ := by
  refine ⟨by decide, by decide⟩

/-- C5 amended: `EQUAL` pushes the derived structural-or-pointer equality:
`Nil` equals `Nil`, `Bool`s by value, `Number`s by value, two literal
strings by contents — but heap objects compare by pointer identity, and a
literal string never equals a heap string; values of different kinds are
never equal. -/
theorem c5_equal_amended (a b : Value) (rest : List Value) (objs : List Nat)
    (hp : List (Nat × HObject)) (g : List (String × Value))
    (fr : List CallFrame) (na : Nat) :
    VM.op_equal ⟨a :: b :: rest, objs, hp, g, fr, na⟩ =
      .ok ⟨.bool (valueEq a b) :: rest, objs, hp, g, fr, na⟩ ∧
    valueEq .nil .nil = true ∧
    (∀ x y : Bool, valueEq (.bool x) (.bool y) = (x == y)) ∧
    (∀ x y : ℚ, valueEq (.num x) (.num y) = (x == y)) ∧
    (∀ s t : String, valueEq (.litString s) (.litString t) = (s == t)) ∧
    (∀ p q : Nat, valueEq (.obj p) (.obj q) = (p == q)) ∧
    (∀ s : String, ∀ p : Nat,
      valueEq (.litString s) (.obj p) = false ∧
      valueEq (.obj p) (.litString s) = false) := by
  exact ⟨rfl, rfl, fun _ _ => rfl, fun _ _ => rfl, fun _ _ => rfl,
    fun _ _ => rfl, fun _ _ => ⟨rfl, rfl⟩⟩

/-- C10: `reset_vm` empties the value stack, the frame stack, and the object
list (freeing its nodes), and leaves the globals map untouched — which is
why the REPL, running each line on one shared VM and calling `reset_vm`
after it, keeps global definitions across lines. -/
theorem c10_reset_vm_keeps_globals (vm : VM) :
    (vm.reset_vm).globals = vm.globals ∧
    (vm.reset_vm).stack = [] ∧
    (vm.reset_vm).frames = [] ∧
    (vm.reset_vm).objects = [] :=
  ⟨rfl, rfl, rfl, rfl⟩

/-- C3 counterexample: `ADD` on the literal string `"a"` and `nil` — where
the claim, restricting the non-string operand to numbers and strings,
requires a runtime error — instead formats `nil`, concatenates, and pushes
the tracked heap string `"aNil"`. -/
theorem c3_add_string_nil_concatenates :
    VM.binary_op addNilExampleVM .opAdd =
      .ok { addNilExampleVM with
        stack := [.obj 0], objects := [0],
        heap := [(0, .hstring "aNil")], nextAddr := 1 } := by decide

/-- C3 amended: for every execution of `ADD` with two operands on the stack:
if both are numbers their sum (modelled exactly; the source adds `f64`s) is
pushed; if either operand is a string — the other operand being of *any*
kind, nil, bool, number, string, or heap object, its textual form being used
— both operands are formatted to their string form, concatenated
left-to-right, and the resulting heap string is pushed and tracked at the
head of the object list, heap-object inputs having been unlinked from the
list (left first, then right) before the allocation; in all remaining cases
`ADD` raises the runtime error `Invalid operation on these operands.`. -/
theorem c3_add_amended (r l : Value) (rest : List Value) (objs : List Nat)
    (hp : List (Nat × HObject)) (g : List (String × Value))
    (fr : List CallFrame) (na : Nat) :
    (∀ x y : ℚ, l = .num x → r = .num y →
      VM.binary_op ⟨r :: l :: rest, objs, hp, g, fr, na⟩ .opAdd =
        .ok ⟨.num (x + y) :: rest, objs, hp, g, fr, na⟩) ∧
    ((isStringH hp r || isStringH hp l) = true →
      VM.binary_op ⟨r :: l :: rest, objs, hp, g, fr, na⟩ .opAdd =
        .ok ⟨.obj na :: rest,
          na :: unlinkIfObj (unlinkIfObj objs l) r,
          (na, .hstring (asStringH hp l ++ asStringH hp r)) :: hp,
          g, fr, na + 1⟩) ∧
    ((r.isNumber && l.isNumber) = false →
      (isStringH hp r || isStringH hp l) = false →
      VM.binary_op ⟨r :: l :: rest, objs, hp, g, fr, na⟩ .opAdd =
        .error "Invalid operation on these operands.") := by
  refine ⟨?_, ?_, ?_⟩
  · rintro x y rfl rfl
    rfl
  · intro hs
    have hcat := concatenate_strings_eq ⟨rest, objs, hp, g, fr, na⟩ l r
    simp only [VM.binary_op, VM.isString, hs, Bool.and_self, beq_self_eq_true,
      Bool.and_true, Bool.or_true, Bool.not_true, Bool.false_eq_true,
      if_false, if_true, hcat]
  · intro hn hs
    simp only [VM.binary_op, VM.isString, hn, hs, Bool.false_and,
      Bool.or_false, Bool.not_false, if_true]

/-- C3 amendment at work: numeric addition, string-with-string
concatenation, and the error case on `nil + true`. -/
theorem c3_add_amended_witness :
    VM.binary_op ⟨[.num 2, .num 1], [], [], [], [], 0⟩ .opAdd =
      .ok ⟨[.num 3], [], [], [], [], 0⟩ ∧
    VM.binary_op ⟨[.litString "b", .litString "a"], [], [], [], [], 0⟩ .opAdd =
      .ok ⟨[.obj 0], [0], [(0, .hstring "ab")], [], [], 1⟩ ∧
    VM.binary_op ⟨[.bool true, .nil], [], [], [], [], 0⟩ .opAdd =
      .error "Invalid operation on these operands." := by
  refine ⟨?_, ?_, ?_⟩
  · have h := (c3_add_amended (.num 2) (.num 1) [] [] [] [] [] 0).1 1 2 rfl rfl
    exact h.trans (by norm_num)
  · have h := (c3_add_amended (.litString "b") (.litString "a")
      [] [] [] [] [] 0).2.1 (by decide)
    exact h.trans (by decide)
  · exact (c3_add_amended (.bool true) .nil [] [] [] [] [] 0).2.2
      (by decide) (by decide)

/-- C6: `CALL argc` dispatch: a function callee whose arity differs from
`argc` raises `Expected {arity} arguments but got {argc}.`; with the frame
stack already holding 64 frames it raises `Stack overflow.`; otherwise a new
frame is pushed with `ip = 0` and base `top - argc`; a callee that is
neither a function nor a native raises
`Can only call functions and classes`. -/
theorem c6_call_value_dispatch (natImpl : Nat → Nat → List Value → Value)
    (vm : VM) (callee : Value) (argc : Nat) :
    (vm.isFunction callee = true →
      argc ≠ (vm.as_function_ref callee).arity →
      vm.call_value natImpl callee argc = some (.error
        ("Expected " ++ toString (vm.as_function_ref callee).arity ++
          " arguments but got " ++ toString argc ++ "."))) ∧
    (vm.isFunction callee = true →
      argc = (vm.as_function_ref callee).arity →
      vm.frames.length = 64 →
      vm.call_value natImpl callee argc = some (.error "Stack overflow.")) ∧
    (vm.isFunction callee = true →
      argc = (vm.as_function_ref callee).arity →
      vm.frames.length ≠ 64 →
      vm.call_value natImpl callee argc = some (.ok { vm with
        frames := ⟨callee, 0, vm.stack.length - argc⟩ :: vm.frames })) ∧
    (vm.isFunction callee = false → vm.isNative callee = false →
      vm.call_value natImpl callee argc = some (.error
        "Can only call functions and classes")) := by
  refine ⟨?_, ?_, ?_, ?_⟩
  · intro hf hne
    simp [VM.call_value, VM.call, hf, hne]
  · intro hf he hfr
    simp [VM.call_value, VM.call, FRAMES_MAX, hf, he, hfr]
  · intro hf he hfr
    simp [VM.call_value, VM.call, FRAMES_MAX, hf, he, hfr]
  · intro hf hn
    simp [VM.call_value, hf, hn]

/-- C6 instances: arity mismatch, a full frame stack, a successful frame
push, and a non-callable callee, each through `call_value`. -/
theorem c6_call_value_dispatch_witness :
    VM.call_value firstArgNative
        ⟨[.num 3, .obj 0], [], callExampleHeap, [], [], 2⟩ (.obj 0) 0 =
      some (.error "Expected 1 arguments but got 0.") ∧
    VM.call_value firstArgNative fullFramesVM (.obj 0) 1 =
      some (.error "Stack overflow.") ∧
    VM.call_value firstArgNative
        ⟨[.num 3, .obj 0], [], callExampleHeap, [], [], 2⟩ (.obj 0) 1 =
      some (.ok ⟨[.num 3, .obj 0], [], callExampleHeap, [],
        [⟨.obj 0, 0, 1⟩], 2⟩) ∧
    VM.call_value firstArgNative ⟨[], [], [], [], [], 0⟩ .nil 0 =
      some (.error "Can only call functions and classes") := by
  refine ⟨?_, ?_, ?_, ?_⟩
  · have h := (c6_call_value_dispatch firstArgNative
      ⟨[.num 3, .obj 0], [], callExampleHeap, [], [], 2⟩ (.obj 0) 0).1
      (by decide) (by decide)
    exact h.trans (by decide)
  · have h := (c6_call_value_dispatch firstArgNative fullFramesVM
      (.obj 0) 1).2.1 (by decide) (by decide) (by decide)
    exact h
  · have h := (c6_call_value_dispatch firstArgNative
      ⟨[.num 3, .obj 0], [], callExampleHeap, [], [], 2⟩ (.obj 0) 1).2.2.1
      (by decide) (by decide) (by decide)
    exact h.trans (by decide)
  · exact (c6_call_value_dispatch firstArgNative ⟨[], [], [], [], [], 0⟩
      .nil 0).2.2.2 (by decide) (by decide)

/-- Popping `n` values off a stack that starts with an `n`-element segment
yields exactly that segment, top first. -/
theorem popN_append (buf s : List Value) :
    popN buf.length (buf ++ s) = some (buf, s) := by
  induction buf with
  | nil => rfl
  | cons v rest ih =>
    simp [popN, ih]

/-- C9: dispatching `CALL` to a native callee pops the `argc` arguments into
the buffer one at a time, so for arguments pushed in source order the native
receives them reversed — the last argument at buffer index 0 — after which
the callee is popped and the native's single result is pushed. -/
theorem c9_native_receives_reversed_args
    (natImpl : Nat → Nat → List Value → Value) (srcArgs : List Value)
    (calleeAddr natId : Nat) (rest : List Value) (objs : List Nat)
    (hp : List (Nat × HObject)) (g : List (String × Value))
    (fr : List CallFrame) (na : Nat)
    (hn : heapGet hp calleeAddr = some (.hnative natId)) :
    VM.call_value natImpl
      ⟨srcArgs.reverse ++ .obj calleeAddr :: rest, objs, hp, g, fr, na⟩
      (.obj calleeAddr) srcArgs.length =
      some (.ok ⟨natImpl natId srcArgs.length srcArgs.reverse :: rest,
        objs, hp, g, fr, na⟩) := by
  have hpop : popN srcArgs.length
      (srcArgs.reverse ++ Value.obj calleeAddr :: rest) =
      some (srcArgs.reverse, Value.obj calleeAddr :: rest) := by
    have := popN_append srcArgs.reverse (Value.obj calleeAddr :: rest)
    simpa using this
  simp [VM.call_value, VM.isFunction, isFunctionH, VM.isNative, isNativeH,
    VM.as_native_ref, asNativeRefH, hn, hpop, VM.popDiscard, VM.push]

/-- C9 at work: a two-argument native call — arguments pushed in the order
`1, 2` — hands the native the buffer `[2, 1]`, whose index-0 entry (the
*last* source argument) the `firstArgNative` behaviour returns. -/
theorem c9_native_receives_reversed_args_witness :
    heapGet [(5, HObject.hnative 3)] 5 = some (.hnative 3) ∧
    VM.call_value firstArgNative
      ⟨[.num 2, .num 1, .obj 5], [], [(5, .hnative 3)], [], [], 0⟩
      (.obj 5) 2 =
      some (.ok ⟨[.num 2], [], [(5, .hnative 3)], [], [], 0⟩) := by
  constructor
  · decide
  · have h := c9_native_receives_reversed_args firstArgNative
      [.num 1, .num 2] 5 3 [] [] [(5, .hnative 3)] [] [] 0 (by decide)
    simpa [firstArgNative] using h

/-- C7: `emit_jump` appends the opcode and two `0xff` placeholders and
returns the index of the first placeholder byte; `patch_jump` overwrites the
two placeholder bytes in place with the big-endian 16-bit distance from the
byte after the placeholder (`offset + 2`) to the current end of code,
leaving both sequence lengths unchanged, and rejects distances beyond
65535; `emit_loop` likewise rejects loop offsets beyond 65535. -/
theorem c7_jump_emission_and_patching :
    (∀ (c : Chunk) (instruction : Nat) (line : Int),
      emit_jump c instruction line =
        ({ c with code := c.code ++ [instruction, 255, 255],
                  lines := c.lines ++ [line, line, line] },
          c.code.length + 1)) ∧
    (∀ (c : Chunk) (offset : Nat), offset + 2 ≤ c.code.length →
      (c.code.length - (offset + 2) ≤ 65535 →
        patch_jump c offset =
          ({ c with code := (c.code.set offset ((c.code.length - (offset + 2)) / 256)).set (offset + 1) ((c.code.length - (offset + 2)) % 256) },
            none) ∧
        256 * ((c.code.length - (offset + 2)) / 256) +
            (c.code.length - (offset + 2)) % 256 =
          c.code.length - (offset + 2) ∧
        (patch_jump c offset).1.code.length = c.code.length ∧
        (patch_jump c offset).1.lines.length = c.lines.length) ∧
      (65535 < c.code.length - (offset + 2) →
        patch_jump c offset = (c, some "Too much code to jump over"))) ∧
    (∀ (c : Chunk) (loop_start : Nat) (line : Int),
      (c.code.length + 1 - loop_start + 2 ≤ 65535 →
        emit_loop c loop_start line =
          ({ c with code := c.code ++ [OpCode.opLoop.toByte, (c.code.length + 1 - loop_start + 2) / 256, (c.code.length + 1 - loop_start + 2) % 256], lines := c.lines ++ [line, line, line] }, none)) ∧
      (65535 < c.code.length + 1 - loop_start + 2 →
        emit_loop c loop_start line =
          ({ c with code := c.code ++ [OpCode.opLoop.toByte], lines := c.lines ++ [line] }, some "Loop body too large"))) := by
  refine ⟨?_, ?_, ?_⟩
  · intro c instruction line
    simp [emit_jump, emit_byte, Chunk.write_chunk]
  · intro c offset _hofs
    constructor
    · intro hle
      have hcond : ¬(c.code.length - offset - 2 > 65535) := by omega
      refine ⟨?_, ?_, ?_, ?_⟩
      · simp [patch_jump, hcond, Nat.sub_sub]
        omega
      · omega
      · simp [patch_jump, hcond]
      · simp [patch_jump, hcond]
    · intro hgt
      have hcond : c.code.length - offset - 2 > 65535 := by omega
      simp [patch_jump, hcond]
  · intro c loop_start line
    constructor
    · intro hle
      have hcond :
          ¬((emit_byte c OpCode.opLoop.toByte line).code.length -
              loop_start + 2 > 65535) := by
        simp [emit_byte, Chunk.write_chunk]
        omega
      simp [emit_loop, emit_byte, Chunk.write_chunk, hcond]
      omega
    · intro hgt
      have hcond :
          (emit_byte c OpCode.opLoop.toByte line).code.length -
              loop_start + 2 > 65535 := by
        simp [emit_byte, Chunk.write_chunk]
        omega
      simp [emit_loop, emit_byte, Chunk.write_chunk, hcond]
      omega

/-- C7 instances: a forward jump reserved after one byte of code, a patch
writing the distance 2, and a tight loop. -/
theorem c7_jump_emission_and_patching_witness :
    emit_jump ⟨[7], [], [1]⟩ 21 1 =
      (⟨[7, 21, 255, 255], [], [1, 1, 1, 1]⟩, 2) ∧
    patch_jump ⟨[21, 255, 255, 15, 15], [], [1, 1, 1, 1, 1]⟩ 1 =
      (⟨[21, 0, 2, 15, 15], [], [1, 1, 1, 1, 1]⟩, none) ∧
    emit_loop ⟨[], [], []⟩ 0 1 = (⟨[23, 0, 3], [], [1, 1, 1]⟩, none) := by
  refine ⟨?_, ?_, ?_⟩
  · have h := c7_jump_emission_and_patching.1 ⟨[7], [], [1]⟩ 21 1
    exact h.trans (by decide)
  · have h := ((c7_jump_emission_and_patching.2.1
      ⟨[21, 255, 255, 15, 15], [], [1, 1, 1, 1, 1]⟩ 1 (by decide)).1
      (by decide)).1
    exact h.trans (by decide)
  · have h := (c7_jump_emission_and_patching.2.2 ⟨[], [], []⟩ 0 1).1
      (by norm_num)
    exact h.trans (by decide)

/-- C8: every operation a compilation performs on a chunk — emitting a byte
with its line, reserving a jump, emitting a loop, patching a jump in place,
adding a constant — preserves `|code| = |lines|`; hence starting from the
fresh chunk the equality holds at every point during and after compilation. -/
theorem c8_code_and_lines_same_length :
    (∀ (c : Chunk) (s : EmitStep), c.code.length = c.lines.length →
      (applyStep c s).code.length = (applyStep c s).lines.length) ∧
    (∀ steps : List EmitStep,
      (steps.foldl applyStep {}).code.length =
        (steps.foldl applyStep {}).lines.length) := by
  have step : ∀ (c : Chunk) (s : EmitStep), c.code.length = c.lines.length →
      (applyStep c s).code.length = (applyStep c s).lines.length := by
    intro c s h
    cases s with
    | byte b line =>
      simp [applyStep, emit_byte, Chunk.write_chunk, h]
    | jump instruction line =>
      simp [applyStep, emit_jump, emit_byte, Chunk.write_chunk, h]
    | patch offset =>
      simp only [applyStep, patch_jump]
      split <;> simp [h]
    | loop loop_start line =>
      simp only [applyStep, emit_loop]
      split <;> simp [emit_byte, Chunk.write_chunk, h]
    | const v =>
      simp [applyStep, make_constant, Chunk.add_constant]
      split <;> simp [h]
  have fold : ∀ (steps : List EmitStep) (c : Chunk),
      c.code.length = c.lines.length →
      (steps.foldl applyStep c).code.length =
        (steps.foldl applyStep c).lines.length := by
    intro steps
    induction steps with
    | nil => intro c h; exact h
    | cons s rest ih => intro c h; exact ih _ (step c s h)
  exact ⟨step, fun steps => fold steps {} rfl⟩

/-- C8 at a concrete point: reserving a jump over a one-byte chunk keeps the
code and line sequences the same length. -/
theorem c8_code_and_lines_same_length_witness :
    (applyStep ⟨[7], [], [1]⟩ (.jump 21 4)).code.length =
      (applyStep ⟨[7], [], [1]⟩ (.jump 21 4)).lines.length :=
  c8_code_and_lines_same_length.1 ⟨[7], [], [1]⟩ (.jump 21 4) (by decide)

end RsLox
